import Mathlib

/-!
Shallow embedding of `src/script.js`: the `ThemeManager` class (theme
resolution, application, toggling, storage synchronisation, hex-to-RGB
conversion) and the scroll-linked parts of the `AnimationManager` class
(intersection-driven entrance animation, scroll-progress computation).
Each definition mirrors the JavaScript source; machine arithmetic of the
host (IEEE division producing NaN and infinities, `parseInt` semantics)
is modelled explicitly where a claim depends on it.
-/

/-- JS truthiness of a `localStorage.getItem` result: `null` (modelled as
`none`) and the empty string are falsy, every other string is truthy. -/
def jsTruthy : Option String → Bool
  | none => false
  | some s => if s = "" then false else true

/-- State of a `ThemeManager` instance together with the browser state it
mutates: the in-memory `currentTheme` field, the value stored under the
`localStorage` key `theme` (`none` when the key is absent), and whether the
root element carries the `dark-mode` class.  The icon visibility classes,
the derived `--*-rgb` variables and the transient `theme-transition` class
are further DOM write-only effects of `applyTheme` that no claim quantifies
over; they are functions of the theme argument in the same way as
`darkClass`. -/
structure TMState where
  currentTheme : String
  storedTheme : Option String
  darkClass : Bool
deriving DecidableEq

/-- `ThemeManager.getInitialTheme` (script.js lines 38-47): use the saved
value when it is truthy and one of the two enum strings, otherwise fall back
to the OS media query. -/
def getInitialTheme (savedTheme : Option String) (osDark : Bool) : String :=
  match savedTheme with
  | some s =>
      if s ≠ "" ∧ (s = "light" ∨ s = "dark") then s
      else if osDark then "dark" else "light"
  | none => if osDark then "dark" else "light"

/-- `ThemeManager.applyTheme` (lines 52-75) restricted to the fields of
`TMState`: toggle the `dark-mode` class, persist the theme under the
`theme` key, update the in-memory field. -/
def applyTheme (theme : String) (s : TMState) : TMState :=
  { s with
    darkClass := theme = "dark"
    storedTheme := some theme
    currentTheme := theme }

/-- `ThemeManager.toggleTheme` (lines 80-83). -/
def toggleTheme (s : TMState) : TMState :=
  applyTheme (if s.currentTheme = "light" then "dark" else "light") s

/-- `ThemeManager.handleSystemThemeChange` (lines 88-93); `m` is the
`matches` field of the delivered media-query-change event. -/
def handleSystemThemeChange (m : Bool) (s : TMState) : TMState :=
  if !jsTruthy s.storedTheme then
    applyTheme (if m then "dark" else "light") s
  else s

/-- `ThemeManager.setTheme` (lines 156-160). -/
def setTheme (theme : String) (s : TMState) : TMState :=
  if theme = "light" ∨ theme = "dark" then applyTheme theme s else s

/-- `ThemeManager.getTheme` (lines 165-167). -/
def getTheme (s : TMState) : String :=
  s.currentTheme

/-- Construction of a `ThemeManager` (lines 5-33): the constructor computes
`currentTheme` with `getInitialTheme` from the stored value and the media
query, and `init` immediately applies that theme.  `pageDark` is whatever
`dark-mode` class state the document had beforehand. -/
def newThemeManager (stored : Option String) (osDark : Bool) (pageDark : Bool) : TMState :=
  applyTheme (getInitialTheme stored osDark)
    { currentTheme := getInitialTheme stored osDark
      storedTheme := stored
      darkClass := pageDark }

/-- Invariant of the running manager: the in-memory theme is one of the two
enum values and the stored `theme` key holds exactly that value. -/
def TMInv (s : TMState) : Prop :=
  (s.currentTheme = "light" ∨ s.currentTheme = "dark") ∧
    s.storedTheme = some s.currentTheme

theorem getInitialTheme_valid (stored : Option String) (osDark : Bool) :
    getInitialTheme stored osDark = "light" ∨ getInitialTheme stored osDark = "dark" := by
  rcases stored with _ | s
  · cases osDark <;> simp [getInitialTheme]
  · by_cases hc : s ≠ "" ∧ (s = "light" ∨ s = "dark")
    · simp only [getInitialTheme, if_pos hc]
      exact hc.2
    · simp only [getInitialTheme, if_neg hc]
      cases osDark <;> simp

theorem applyTheme_TMInv (t : String) (s : TMState) (h : t = "light" ∨ t = "dark") :
    TMInv (applyTheme t s) := by
  rcases h with rfl | rfl <;> simp [TMInv, applyTheme]

/-- C3: initial-theme resolution returns the stored value verbatim exactly
when it is `light` or `dark`; for any other stored value, and when no value
is stored, it returns `dark` when the OS dark-scheme query matches and
`light` otherwise; the result is always one of the two enum values. -/
theorem C3_initial_theme_resolution :
    (∀ (osDark : Bool) (v : String), v = "light" ∨ v = "dark" →
        getInitialTheme (some v) osDark = v) ∧
    (∀ (osDark : Bool) (v : String),
        getInitialTheme (some v) osDark = v ↔ (v = "light" ∨ v = "dark")) ∧
    (∀ (osDark : Bool) (v : String), ¬(v = "light" ∨ v = "dark") →
        getInitialTheme (some v) osDark = (if osDark then "dark" else "light")) ∧
    (∀ osDark : Bool,
        getInitialTheme none osDark = (if osDark then "dark" else "light")) ∧
    (∀ (stored : Option String) (osDark : Bool),
        getInitialTheme stored osDark = "light" ∨ getInitialTheme stored osDark = "dark") := by
  have hval : ∀ (osDark : Bool) (v : String), v = "light" ∨ v = "dark" →
      getInitialTheme (some v) osDark = v := by
    rintro osDark v (rfl | rfl) <;> simp [getInitialTheme]
  have hinv : ∀ (osDark : Bool) (v : String), ¬(v = "light" ∨ v = "dark") →
      getInitialTheme (some v) osDark = (if osDark then "dark" else "light") := by
    intro osDark v hv
    have hc : ¬(v ≠ "" ∧ (v = "light" ∨ v = "dark")) := by tauto
    simp only [getInitialTheme, if_neg hc]
  refine ⟨hval, ?_, hinv, ?_, getInitialTheme_valid⟩
  · intro osDark v
    constructor
    · intro h
      by_contra hv
      rw [hinv osDark v hv] at h
      cases osDark <;> simp_all
    · exact hval osDark v
  · intro osDark
    simp [getInitialTheme]

/-- C3 witness: a concrete invalid stored value `auto` falls back to the OS
preference. -/
theorem C3_initial_theme_resolution_witness :
    getInitialTheme (some "dark") false = "dark" ∧
    getInitialTheme (some "auto") true = (if true then "dark" else "light") := by
  constructor
  · exact C3_initial_theme_resolution.1 false "dark" (by decide)
  · exact C3_initial_theme_resolution.2.2.1 true "auto" (by decide)

/-- C1: an OS color-scheme-change event is honored while no value is stored
under the `theme` key (the handler applies `dark` when the query matches and
`light` otherwise, writing it to storage), and once an explicit preference
(one of the two enum values, the only values the manager ever stores) is
stored, the event is ignored: no state change and no storage write. -/
theorem C1_system_change_handler :
    (∀ (m : Bool) (s : TMState), s.storedTheme = none →
        handleSystemThemeChange m s = applyTheme (if m then "dark" else "light") s ∧
        (handleSystemThemeChange m s).currentTheme = (if m then "dark" else "light") ∧
        (handleSystemThemeChange m s).storedTheme = some (if m then "dark" else "light")) ∧
    (∀ (m : Bool) (s : TMState) (t : String), s.storedTheme = some t →
        t = "light" ∨ t = "dark" →
        handleSystemThemeChange m s = s) := by
  constructor
  · intro m s h
    simp [handleSystemThemeChange, jsTruthy, h, applyTheme]
  · rintro m s t h (rfl | rfl) <;>
      simp [handleSystemThemeChange, jsTruthy, h]

/-- C1 witness: with nothing stored the handler applies the OS theme; with
`light` stored it is a no-op. -/
theorem C1_system_change_handler_witness :
    handleSystemThemeChange true (TMState.mk "light" none false) =
      applyTheme (if true then "dark" else "light") (TMState.mk "light" none false) ∧
    handleSystemThemeChange true (TMState.mk "light" (some "light") false) =
      TMState.mk "light" (some "light") false := by
  constructor
  · exact (C1_system_change_handler.1 true (TMState.mk "light" none false) rfl).1
  · exact C1_system_change_handler.2 true (TMState.mk "light" (some "light") false)
      "light" rfl (Or.inl rfl)

/-- C4: from any reachable starting state (the running manager satisfies
`TMInv`: a valid current theme matched by storage, established at
construction), toggling twice restores both the in-memory current theme and
the persisted stored value. -/
theorem C4_toggle_involution (s : TMState) (h : TMInv s) :
    (toggleTheme (toggleTheme s)).currentTheme = s.currentTheme ∧
    (toggleTheme (toggleTheme s)).storedTheme = s.storedTheme := by
  obtain ⟨hv, hs⟩ := h
  rcases hv with h1 | h1 <;>
    simp [toggleTheme, applyTheme, h1, hs]

/-- C4 witness: double toggle from the stored-light state. -/
theorem C4_toggle_involution_witness :
    (toggleTheme (toggleTheme (TMState.mk "light" (some "light") false))).currentTheme =
      (TMState.mk "light" (some "light") false).currentTheme ∧
    (toggleTheme (toggleTheme (TMState.mk "light" (some "light") false))).storedTheme =
      (TMState.mk "light" (some "light") false).storedTheme :=
  C4_toggle_involution (TMState.mk "light" (some "light") false) ⟨Or.inl rfl, rfl⟩

/-- C5: `setTheme` with any argument outside the two enum values leaves the
whole state (in particular the in-memory theme and the stored value)
unchanged, and with `light` or `dark` it applies the theme. -/
theorem C5_setTheme_validation :
    (∀ (s : TMState) (t : String), t ≠ "light" → t ≠ "dark" →
        setTheme t s = s ∧
        (setTheme t s).currentTheme = s.currentTheme ∧
        (setTheme t s).storedTheme = s.storedTheme) ∧
    (∀ (s : TMState) (t : String), t = "light" ∨ t = "dark" →
        setTheme t s = applyTheme t s) := by
  constructor
  · intro s t h1 h2
    simp [setTheme, h1, h2]
  · intro s t h
    simp [setTheme, h]

/-- C5 witness: `setTheme` with the invalid value `blue` is a no-op, with
`dark` it applies. -/
theorem C5_setTheme_validation_witness :
    setTheme "blue" (TMState.mk "light" (some "light") false) =
      TMState.mk "light" (some "light") false ∧
    setTheme "dark" (TMState.mk "light" (some "light") false) =
      applyTheme "dark" (TMState.mk "light" (some "light") false) := by
  constructor
  · exact (C5_setTheme_validation.1 (TMState.mk "light" (some "light") false)
      "blue" (by decide) (by decide)).1
  · exact C5_setTheme_validation.2 (TMState.mk "light" (some "light") false)
      "dark" (Or.inr rfl)

/-- C9: the invariant (current theme is a valid enum value and storage holds
exactly it) is established by construction — `applyTheme` writes storage
unconditionally, also when the initial theme came from the OS preference —
and preserved by `toggleTheme`, by `setTheme` with a valid argument, and by
the system-preference-change handler. -/
theorem C9_theme_storage_invariant :
    (∀ (stored : Option String) (osDark pageDark : Bool),
        TMInv (newThemeManager stored osDark pageDark)) ∧
    (∀ s : TMState, TMInv s → TMInv (toggleTheme s)) ∧
    (∀ (s : TMState) (t : String), TMInv s → t = "light" ∨ t = "dark" →
        TMInv (setTheme t s)) ∧
    (∀ (s : TMState) (m : Bool), TMInv s → TMInv (handleSystemThemeChange m s)) := by
  refine ⟨?_, ?_, ?_, ?_⟩
  · intro stored osDark pageDark
    exact applyTheme_TMInv _ _ (getInitialTheme_valid stored osDark)
  · intro s _
    apply applyTheme_TMInv
    by_cases h : s.currentTheme = "light" <;> simp [h]
  · intro s t _ ht
    rw [setTheme, if_pos ht]
    exact applyTheme_TMInv t s ht
  · intro s m h
    obtain ⟨hv, hs⟩ := h
    have hne : jsTruthy s.storedTheme = true := by
      rcases hv with h1 | h1 <;> simp [jsTruthy, hs, h1]
    rw [handleSystemThemeChange, hne]
    simp [TMInv, hv, hs]

/-- C9 witness: the invariant holds after construction from empty storage and
is preserved by a toggle, a valid `setTheme` and a system change event. -/
theorem C9_theme_storage_invariant_witness :
    TMInv (newThemeManager none true false) ∧
    TMInv (toggleTheme (TMState.mk "dark" (some "dark") true)) ∧
    TMInv (setTheme "light" (TMState.mk "dark" (some "dark") true)) ∧
    TMInv (handleSystemThemeChange false (TMState.mk "dark" (some "dark") true)) := by
  refine ⟨C9_theme_storage_invariant.1 none true false, ?_, ?_, ?_⟩
  · exact C9_theme_storage_invariant.2.1 (TMState.mk "dark" (some "dark") true)
      ⟨Or.inr rfl, rfl⟩
  · exact C9_theme_storage_invariant.2.2.1 (TMState.mk "dark" (some "dark") true)
      "light" ⟨Or.inr rfl, rfl⟩ (Or.inl rfl)
  · exact C9_theme_storage_invariant.2.2.2 (TMState.mk "dark" (some "dark") true)
      false ⟨Or.inr rfl, rfl⟩

/-- Characters accepted as digits by the host `parseInt` at radix 16. -/
def isHexDigitChar (c : Char) : Bool :=
  c.isDigit || ('a' ≤ c && c ≤ 'f') || ('A' ≤ c && c ≤ 'F')

/-- Numeric value of a radix-16 digit character. -/
def hexCharVal (c : Char) : ℕ :=
  if c.isDigit then c.toNat - 48
  else if 'a' ≤ c then c.toNat - 87
  else c.toNat - 55

/-- Value of a digit string, most significant digit first. -/
def hexListVal (l : List Char) : ℕ :=
  l.foldl (fun a c => 16 * a + hexCharVal c) 0

/-- Whitespace and line-terminator characters skipped by `parseInt`. -/
def jsWhitespaceChars : List Char := [' ', '\t', '\n', '\r', '\x0b', '\x0c']

/-- The host `parseInt(s, 16)` (ECMA-262): skip leading whitespace, read an
optional sign, strip an optional `0x`/`0X` prefix, then read the longest run
of hexadecimal digits, ignoring everything after it; the result is `none`
(NaN) when that run is empty. -/
def jsParseIntHex (l : List Char) : Option Int :=
  let l1 := l.dropWhile (fun c => jsWhitespaceChars.contains c)
  let sign : Int := match l1 with
    | '-' :: _ => -1
    | _ => 1
  let l2 := match l1 with
    | '-' :: rest => rest
    | '+' :: rest => rest
    | _ => l1
  let l3 := match l2 with
    | '0' :: 'x' :: rest => rest
    | '0' :: 'X' :: rest => rest
    | _ => l2
  let ds := l3.takeWhile isHexDigitChar
  if ds.isEmpty then none else some (sign * (hexListVal ds : Int))

/-- The step `hex.replace('#', '')` of `hexToRgb`: JS `String.replace` with a
string pattern removes only the first occurrence, wherever it is. -/
def jsReplaceFirstHash : List Char → List Char
  | [] => []
  | c :: rest => if c = '#' then rest else c :: jsReplaceFirstHash rest

/-- Rendering of a `parseInt` result inside the template literal of
`hexToRgb`: NaN prints as `NaN`, integers in decimal. -/
def renderComponent : Option Int → String
  | none => "NaN"
  | some n => toString n

/-- `ThemeManager.hexToRgb` (lines 123-141): strip the first `#`, double each
character of a length-3 string (the `split/map/join` step), return `null`
unless the length is now exactly 6, and otherwise parse the three 2-character
substrings with `parseInt(_, 16)` into the template `R, G, B`.  The length
test is the only validation; the characters themselves are never checked. -/
def hexToRgb (hex : String) : Option String :=
  let h1 := jsReplaceFirstHash hex.toList
  let h2 := if h1.length = 3 then (h1.map (fun c => [c, c])).flatten else h1
  if h2.length ≠ 6 then none
  else
    some (renderComponent (jsParseIntHex (h2.take 2)) ++ ", " ++
      renderComponent (jsParseIntHex ((h2.drop 2).take 2)) ++ ", " ++
      renderComponent (jsParseIntHex ((h2.drop 4).take 2)))

/-- The guard of `updateRgbVariables` (lines 112-117): the `-rgb` style
variable for a color is written exactly when `hexToRgb` returned a truthy
value, i.e. a non-null, nonempty string. -/
def writesRgbVar (hex : String) : Bool :=
  jsTruthy (hexToRgb hex)

/-- The 22 hexadecimal digit characters: the decimal digits followed by the
lowercase and the uppercase letters `a` through `f`. -/
def hexDigitChars : List Char :=
  (List.range 10).map (fun n => Char.ofNat (48 + n)) ++
    (List.range 6).map (fun n => Char.ofNat (97 + n)) ++
    (List.range 6).map (fun n => Char.ofNat (65 + n))

theorem parse2_hex : ∀ c1 ∈ hexDigitChars, ∀ c2 ∈ hexDigitChars,
    jsParseIntHex [c1, c2] = some ((16 * hexCharVal c1 + hexCharVal c2 : ℕ) : ℤ) := by
  decide

theorem hexDigit_ne_hash : ∀ c ∈ hexDigitChars, c ≠ '#' := by decide

theorem length_join_map_pair (l : List Char) :
    ((l.map (fun c => [c, c])).flatten).length = 2 * l.length := by
  induction l with
  | nil => simp
  | cons c t ih => simp [List.flatten, ih]; omega

theorem sum_map_pair_length (l : List Char) :
    (List.map (List.length ∘ fun c => [c, c]) l).sum = 2 * l.length := by
  induction l with
  | nil => simp
  | cons c t ih => simp [Function.comp, ih]; omega

theorem triplet_truthy (a b c : Option Int) :
    jsTruthy (some (renderComponent a ++ ", " ++ renderComponent b ++ ", " ++
      renderComponent c)) = true := by
  have hne : (renderComponent a ++ ", " ++ renderComponent b ++ ", " ++
      renderComponent c) ≠ "" := by
    intro h
    have hlen := congrArg String.length h
    simp [String.length_append] at hlen
    exact absurd hlen.1.1.1.2 (by decide)
  simp [jsTruthy, hne]

/-- C2 counterexample: `zzzzzz` normalizes to itself and is not a string of
hexadecimal digits, yet `hexToRgb` returns the truthy string
`NaN, NaN, NaN`, so the `-rgb` variable IS written for it. -/
theorem C2_rgb_skip_counterexample :
    "zzzzzz".toList.all isHexDigitChar = false ∧
    jsReplaceFirstHash "zzzzzz".toList = "zzzzzz".toList ∧
    writesRgbVar "zzzzzz" = true ∧
    hexToRgb "zzzzzz" = some "NaN, NaN, NaN" :=
  ⟨by decide, by decide, by decide, by decide⟩

/-- C2 amended: the write for a color is skipped exactly when the input,
after removing the first `#` occurrence, has length different from 3 and
from 6; the characters are never validated, so a 3- or 6-character string
with non-hex characters still produces a write (possibly of NaN
components). -/
theorem C2_rgb_skip_length_only (hex : String) :
    writesRgbVar hex = false ↔
      ((jsReplaceFirstHash hex.toList).length ≠ 3 ∧
        (jsReplaceFirstHash hex.toList).length ≠ 6) := by
  by_cases h3 : (jsReplaceFirstHash hex.data).length = 3
  · simp [writesRgbVar, hexToRgb, String.toList, h3, length_join_map_pair,
      sum_map_pair_length, triplet_truthy]
  · by_cases h6 : (jsReplaceFirstHash hex.data).length = 6
    · simp [writesRgbVar, hexToRgb, String.toList, h3, h6, triplet_truthy]
    · simp [writesRgbVar, hexToRgb, String.toList, h3, h6, jsTruthy]

/-- C2 witness: `#12` (length 2 after stripping) yields no write. -/
theorem C2_rgb_skip_length_only_witness :
    writesRgbVar "#12" = false :=
  (C2_rgb_skip_length_only "#12").mpr (by decide)

/-- C6: `hexToRgb` maps every string of six hexadecimal digits, with or
without a leading `#`, to the comma-separated decimal triplet of its color
components, and every string of three hexadecimal digits to the triplet of
its doubled-digit components; in particular `#abc` gives `170, 187, 204`,
`336699` gives `51, 102, 153`, and `#12` (invalid length) gives `null`, so
no variable is written. -/
theorem C6_hexToRgb_conversion :
    (∀ c1 c2 c3 c4 c5 c6 : Char, c1 ∈ hexDigitChars → c2 ∈ hexDigitChars →
        c3 ∈ hexDigitChars → c4 ∈ hexDigitChars → c5 ∈ hexDigitChars →
        c6 ∈ hexDigitChars →
        hexToRgb (String.mk [c1, c2, c3, c4, c5, c6]) =
          some (toString ((16 * hexCharVal c1 + hexCharVal c2 : ℕ) : ℤ) ++ ", " ++
            toString ((16 * hexCharVal c3 + hexCharVal c4 : ℕ) : ℤ) ++ ", " ++
            toString ((16 * hexCharVal c5 + hexCharVal c6 : ℕ) : ℤ)) ∧
        hexToRgb (String.mk ['#', c1, c2, c3, c4, c5, c6]) =
          some (toString ((16 * hexCharVal c1 + hexCharVal c2 : ℕ) : ℤ) ++ ", " ++
            toString ((16 * hexCharVal c3 + hexCharVal c4 : ℕ) : ℤ) ++ ", " ++
            toString ((16 * hexCharVal c5 + hexCharVal c6 : ℕ) : ℤ))) ∧
    (∀ c1 c2 c3 : Char, c1 ∈ hexDigitChars → c2 ∈ hexDigitChars →
        c3 ∈ hexDigitChars →
        hexToRgb (String.mk [c1, c2, c3]) =
          some (toString ((16 * hexCharVal c1 + hexCharVal c1 : ℕ) : ℤ) ++ ", " ++
            toString ((16 * hexCharVal c2 + hexCharVal c2 : ℕ) : ℤ) ++ ", " ++
            toString ((16 * hexCharVal c3 + hexCharVal c3 : ℕ) : ℤ)) ∧
        hexToRgb (String.mk ['#', c1, c2, c3]) =
          some (toString ((16 * hexCharVal c1 + hexCharVal c1 : ℕ) : ℤ) ++ ", " ++
            toString ((16 * hexCharVal c2 + hexCharVal c2 : ℕ) : ℤ) ++ ", " ++
            toString ((16 * hexCharVal c3 + hexCharVal c3 : ℕ) : ℤ))) ∧
    hexToRgb "#abc" = some "170, 187, 204" ∧
    hexToRgb "336699" = some "51, 102, 153" ∧
    hexToRgb "#12" = none := by
  refine ⟨?_, ?_, by decide, by decide, by decide⟩
  · intro c1 c2 c3 c4 c5 c6 h1 h2 h3 h4 h5 h6
    have n1 := hexDigit_ne_hash c1 h1
    have n2 := hexDigit_ne_hash c2 h2
    have n3 := hexDigit_ne_hash c3 h3
    have n4 := hexDigit_ne_hash c4 h4
    have n5 := hexDigit_ne_hash c5 h5
    have n6 := hexDigit_ne_hash c6 h6
    have p12 := parse2_hex c1 h1 c2 h2
    have p34 := parse2_hex c3 h3 c4 h4
    have p56 := parse2_hex c5 h5 c6 h6
    constructor
    · simp [hexToRgb, String.toList, jsReplaceFirstHash, n1, n2, n3, n4, n5, n6,
        p12, p34, p56, renderComponent]
    · simp [hexToRgb, String.toList, jsReplaceFirstHash, n1, n2, n3, n4, n5, n6,
        p12, p34, p56, renderComponent]
  · intro c1 c2 c3 h1 h2 h3
    have n1 := hexDigit_ne_hash c1 h1
    have n2 := hexDigit_ne_hash c2 h2
    have n3 := hexDigit_ne_hash c3 h3
    have p11 := parse2_hex c1 h1 c1 h1
    have p22 := parse2_hex c2 h2 c2 h2
    have p33 := parse2_hex c3 h3 c3 h3
    constructor
    · simp [hexToRgb, String.toList, jsReplaceFirstHash, n1, n2, n3,
        p11, p22, p33, renderComponent]
    · simp [hexToRgb, String.toList, jsReplaceFirstHash, n1, n2, n3,
        p11, p22, p33, renderComponent]

/-- C6 witness: the general 6-digit equation at the digits `12abEF`. -/
theorem C6_hexToRgb_conversion_witness :
    hexToRgb (String.mk ['1', '2', 'a', 'b', 'E', 'F']) =
      some (toString ((16 * hexCharVal '1' + hexCharVal '2' : ℕ) : ℤ) ++ ", " ++
        toString ((16 * hexCharVal 'a' + hexCharVal 'b' : ℕ) : ℤ) ++ ", " ++
        toString ((16 * hexCharVal 'E' + hexCharVal 'F' : ℕ) : ℤ)) :=
  (C6_hexToRgb_conversion.1 '1' '2' 'a' 'b' 'E' 'F' (by decide) (by decide)
    (by decide) (by decide) (by decide) (by decide)).1

/-- An IEEE-754 double as the scroll handler computes it, restricted to the
values that can arise there: a finite number (kept exact as a rational), the
two infinities, or NaN.  Negative zero is not distinguished from zero; no
expression in the handler distinguishes them. -/
inductive JSNum where
  | nan : JSNum
  | posInf : JSNum
  | negInf : JSNum
  | num : ℚ → JSNum
deriving DecidableEq

/-- IEEE subtraction, for `document.body.scrollHeight - window.innerHeight`
(line 237). -/
def jsSub : JSNum → JSNum → JSNum
  | .nan, _ => .nan
  | _, .nan => .nan
  | .posInf, .posInf => .nan
  | .posInf, _ => .posInf
  | .negInf, .negInf => .nan
  | .negInf, _ => .negInf
  | .num _, .posInf => .negInf
  | .num _, .negInf => .posInf
  | .num a, .num b => .num (a - b)

/-- IEEE division, for `scrolled / maxScroll` (line 238): `0 / 0` is NaN, a
nonzero numerator over zero gives a signed infinity. -/
def jsDiv : JSNum → JSNum → JSNum
  | .nan, _ => .nan
  | _, .nan => .nan
  | .posInf, .posInf => .nan
  | .posInf, .negInf => .nan
  | .negInf, .posInf => .nan
  | .negInf, .negInf => .nan
  | .posInf, .num b => if 0 ≤ b then .posInf else .negInf
  | .negInf, .num b => if 0 ≤ b then .negInf else .posInf
  | .num _, .posInf => .num 0
  | .num _, .negInf => .num 0
  | .num a, .num b =>
      if b = 0 then
        if a = 0 then .nan else if 0 < a then .posInf else .negInf
      else .num (a / b)

/-- IEEE multiplication, for `(...) * 100` (line 238). -/
def jsMul : JSNum → JSNum → JSNum
  | .nan, _ => .nan
  | _, .nan => .nan
  | .posInf, .posInf => .posInf
  | .posInf, .negInf => .negInf
  | .negInf, .posInf => .negInf
  | .negInf, .negInf => .posInf
  | .posInf, .num b => if b = 0 then .nan else if 0 < b then .posInf else .negInf
  | .num a, .posInf => if a = 0 then .nan else if 0 < a then .posInf else .negInf
  | .negInf, .num b => if b = 0 then .nan else if 0 < b then .negInf else .posInf
  | .num a, .negInf => if a = 0 then .nan else if 0 < a then .negInf else .posInf
  | .num a, .num b => .num (a * b)

/-- `Math.min` (line 242): NaN-propagating minimum. -/
def jsMin : JSNum → JSNum → JSNum
  | .nan, _ => .nan
  | _, .nan => .nan
  | .negInf, _ => .negInf
  | _, .negInf => .negInf
  | .posInf, b => b
  | a, .posInf => a
  | .num a, .num b => .num (min a b)

/-- `maxScroll` in the scroll listener of
`AnimationManager.setupParallaxEffects` (line 237). -/
def maxScrollOf (scrollHeight innerHeight : JSNum) : JSNum :=
  jsSub scrollHeight innerHeight

/-- `scrollProgress` (line 238): `(scrolled / maxScroll) * 100`. -/
def scrollProgress (scrolled scrollHeight innerHeight : JSNum) : JSNum :=
  jsMul (jsDiv scrolled (maxScrollOf scrollHeight innerHeight)) (.num 100)

/-- The value whose rendering becomes the progress-bar width (line 242):
`Math.min(scrollProgress, 100)`, interpolated into a percentage string. -/
def progressBarWidthVal (scrolled scrollHeight innerHeight : JSNum) : JSNum :=
  jsMin (scrollProgress scrolled scrollHeight innerHeight) (.num 100)

/-- C7: whenever the scrollable range `scrollHeight - innerHeight` is
positive, the clamped progress equals `offset / range * 100` capped at 100;
it is 0 at offset 0, exactly 100 at offset equal to the range, still 100 for
any larger offset, and never exceeds 100. -/
theorem C7_scroll_progress_clamped (s h w : ℚ) (hpos : 0 < h - w) :
    progressBarWidthVal (.num s) (.num h) (.num w) =
      .num (min (s / (h - w) * 100) 100) ∧
    progressBarWidthVal (.num 0) (.num h) (.num w) = .num 0 ∧
    progressBarWidthVal (.num (h - w)) (.num h) (.num w) = .num 100 ∧
    (h - w ≤ s → progressBarWidthVal (.num s) (.num h) (.num w) = .num 100) ∧
    (∀ q : ℚ, progressBarWidthVal (.num s) (.num h) (.num w) = .num q → q ≤ 100) := by
  have hne : h - w ≠ 0 := ne_of_gt hpos
  have key : ∀ x : ℚ, progressBarWidthVal (.num x) (.num h) (.num w) =
      .num (min (x / (h - w) * 100) 100) := by
    intro x
    simp [progressBarWidthVal, scrollProgress, maxScrollOf, jsSub, jsDiv,
      jsMul, jsMin, hne]
  refine ⟨key s, ?_, ?_, ?_, ?_⟩
  · rw [key 0]
    norm_num
  · rw [key (h - w), div_self hne]
    norm_num
  · intro hs
    rw [key s]
    have h1 : (1 : ℚ) ≤ s / (h - w) := (one_le_div hpos).mpr hs
    have h2 : (100 : ℚ) ≤ s / (h - w) * 100 := by nlinarith
    rw [min_eq_right h2]
  · intro q hq
    rw [key s] at hq
    have := JSNum.num.inj hq
    rw [← this]
    exact min_le_right _ _

/-- C7 witness: a 200-pixel document in a 100-pixel viewport, scrolled by
50 pixels. -/
theorem C7_scroll_progress_clamped_witness :
    progressBarWidthVal (.num 50) (.num 200) (.num 100) =
      .num (min ((50 : ℚ) / (200 - 100) * 100) 100) ∧
    progressBarWidthVal (.num 0) (.num 200) (.num 100) = .num 0 ∧
    progressBarWidthVal (.num (200 - 100)) (.num 200) (.num 100) = .num 100 :=
  ⟨(C7_scroll_progress_clamped 50 200 100 (by norm_num)).1,
   (C7_scroll_progress_clamped 50 200 100 (by norm_num)).2.1,
   (C7_scroll_progress_clamped 50 200 100 (by norm_num)).2.2.1⟩

/-- C10: the division is unguarded — when the scrollable height equals the
viewport height the denominator is zero, the progress at offset 0 is `0/0`
(NaN), `Math.min` propagates the NaN instead of restoring a number, and the
value interpolated into the width string is NaN (whose rendering `NaN%` is
not a numeric percentage), not 0 or 100. -/
theorem C10_zero_range_progress_nan (h : ℚ) :
    scrollProgress (.num 0) (.num h) (.num h) = .nan ∧
    progressBarWidthVal (.num 0) (.num h) (.num h) = .nan ∧
    JSNum.nan ≠ JSNum.num 0 ∧ JSNum.nan ≠ JSNum.num 100 := by
  have h0 : h - h = 0 := sub_self h
  refine ⟨?_, ?_, by simp, by simp⟩ <;>
    simp [scrollProgress, progressBarWidthVal, maxScrollOf, jsSub, jsDiv,
      jsMul, jsMin, h0]

/-- C10 witness: a concrete 768-pixel page in a 768-pixel viewport. -/
theorem C10_zero_range_progress_nan_witness :
    progressBarWidthVal (.num 0) (.num 768) (.num 768) = .nan :=
  (C10_zero_range_progress_nan 768).2.1

/-- An entry delivered to the IntersectionObserver callback in
`AnimationManager.setupScrollAnimations` (lines 190-198): the observed
element, identified by an index, and its intersection flag. -/
structure ObsEntry where
  target : ℕ
  isIntersecting : Bool
deriving DecidableEq

/-- Per-element DOM state the callback mutates: the inline `animation-delay`
value in seconds (`none` while unset; the DOM string is the rendering
followed by `s`) and whether the `animate-in` class is present. -/
structure ElemView where
  animationDelay : Option ℚ
  animateIn : Bool
deriving DecidableEq

/-- Observer state: the set of still-observed elements (a duplicate-free
list; `observe` never adds an element twice), the per-element DOM state, and
each element's zero-based position among its parent's children, which is
what `Array.from(entry.target.parentNode.children).indexOf(entry.target)`
computes. -/
structure ObsState where
  observed : List ℕ
  views : ℕ → ElemView
  sibIdx : ℕ → ℕ

/-- Processing of one entry by the callback body (lines 191-198): an
intersecting entry gets `animation-delay` equal to its sibling index times
0.1 seconds and the `animate-in` class, and its target is unobserved; a
non-intersecting entry changes nothing. -/
def processEntry (st : ObsState) (e : ObsEntry) : ObsState :=
  if e.isIntersecting then
    { st with
      views := fun i =>
        if i = e.target then
          { animationDelay := some ((st.sibIdx e.target : ℚ) * (1 / 10))
            animateIn := true }
        else st.views i
      observed := st.observed.filter (fun i => i ≠ e.target) }
  else st

/-- One callback invocation: `entries.forEach` (line 191). -/
def runCallback (st : ObsState) (entries : List ObsEntry) : ObsState :=
  entries.foldl processEntry st

/-- The IntersectionObserver delivery contract: every delivered entry
concerns a currently observed target — `unobserve(entry.target)` stops all
future deliveries for that element. -/
def ValidDelivery (st : ObsState) (entries : List ObsEntry) : Prop :=
  ∀ e ∈ entries, e.target ∈ st.observed

/-- A sequence of callback invocations, each one a valid delivery for the
state it meets. -/
def ValidRun : ObsState → List (List ObsEntry) → Prop
  | _, [] => True
  | st, b :: bs => ValidDelivery st b ∧ ValidRun (runCallback st b) bs

/-- Final state after a sequence of callback invocations. -/
def runBatches (st : ObsState) (bs : List (List ObsEntry)) : ObsState :=
  bs.foldl runCallback st

theorem processEntry_other_views (st : ObsState) (e : ObsEntry) (t : ℕ)
    (h : e.target ≠ t) : (processEntry st e).views t = st.views t := by
  by_cases hi : e.isIntersecting <;>
    simp [processEntry, hi, Ne.symm h]

theorem processEntry_not_observed (st : ObsState) (e : ObsEntry) (t : ℕ)
    (h : t ∉ st.observed) : t ∉ (processEntry st e).observed := by
  by_cases hi : e.isIntersecting
  · simp only [processEntry, hi, if_true, List.mem_filter]
    intro hc
    exact absurd hc.1 h
  · simpa [processEntry, hi] using h

theorem runCallback_avoid (t : ℕ) :
    ∀ (entries : List ObsEntry) (st : ObsState),
      (∀ e ∈ entries, e.target ≠ t) → t ∉ st.observed →
      (runCallback st entries).views t = st.views t ∧
        t ∉ (runCallback st entries).observed := by
  intro entries
  induction entries with
  | nil => exact fun st _ h => ⟨rfl, h⟩
  | cons e es ih =>
    intro st hne hobs
    have step : runCallback st (e :: es) = runCallback (processEntry st e) es := rfl
    have h1 := processEntry_other_views st e t (hne e (by simp))
    have h2 := processEntry_not_observed st e t hobs
    have h3 := ih (processEntry st e) (fun x hx => hne x (by simp [hx])) h2
    rw [step]
    exact ⟨h3.1.trans h1, h3.2⟩

theorem runBatches_avoid (t : ℕ) :
    ∀ (bs : List (List ObsEntry)) (st : ObsState),
      ValidRun st bs → t ∉ st.observed →
      (runBatches st bs).views t = st.views t ∧
        t ∉ (runBatches st bs).observed := by
  intro bs
  induction bs with
  | nil => exact fun st _ h => ⟨rfl, h⟩
  | cons b rest ih =>
    intro st hv hobs
    obtain ⟨hvd, hrest⟩ := hv
    have hne : ∀ e ∈ b, e.target ≠ t := fun e he heq => hobs (heq ▸ hvd e he)
    have step : runBatches st (b :: rest) = runBatches (runCallback st b) rest := rfl
    have h1 := runCallback_avoid t b st hne hobs
    have h2 := ih (runCallback st b) hrest h1.2
    rw [step]
    exact ⟨h2.1.trans h1.1, h2.2⟩

/-- C8: when an observed element intersects, the handler sets its
`animation-delay` to 0.1 seconds times its zero-based sibling position, adds
the `animate-in` class and unobserves it; from then on, under the observer
delivery contract (entries only for observed targets), no later sequence of
callback invocations touches that element again or re-observes it. -/
theorem C8_entrance_animation_one_shot (st : ObsState) (t : ℕ)
    (hobs : t ∈ st.observed) :
    ((processEntry st (ObsEntry.mk t true)).views t).animationDelay =
      some ((st.sibIdx t : ℚ) * (1 / 10)) ∧
    ((processEntry st (ObsEntry.mk t true)).views t).animateIn = true ∧
    t ∉ (processEntry st (ObsEntry.mk t true)).observed ∧
    (∀ bs : List (List ObsEntry),
      ValidRun (processEntry st (ObsEntry.mk t true)) bs →
      (runBatches (processEntry st (ObsEntry.mk t true)) bs).views t =
        (processEntry st (ObsEntry.mk t true)).views t ∧
      t ∉ (runBatches (processEntry st (ObsEntry.mk t true)) bs).observed) := by
  have hni : t ∉ (processEntry st (ObsEntry.mk t true)).observed := by
    simp [processEntry, List.mem_filter]
  refine ⟨?_, ?_, hni, ?_⟩
  · simp [processEntry]
  · simp [processEntry]
  · intro bs hv
    exact runBatches_avoid t bs _ hv hni

/-- C8 witness: three observed siblings; the middle one intersects, then a
further valid delivery for another element arrives. -/
theorem C8_entrance_animation_one_shot_witness :
    1 ∈ (ObsState.mk [0, 1, 2] (fun _ => ElemView.mk none false) (fun i => i)).observed ∧
    ((processEntry (ObsState.mk [0, 1, 2] (fun _ => ElemView.mk none false)
        (fun i => i)) (ObsEntry.mk 1 true)).views 1).animationDelay =
      some (((ObsState.mk [0, 1, 2] (fun _ => ElemView.mk none false)
        (fun i => i)).sibIdx 1 : ℚ) * (1 / 10)) ∧
    1 ∉ (processEntry (ObsState.mk [0, 1, 2] (fun _ => ElemView.mk none false)
        (fun i => i)) (ObsEntry.mk 1 true)).observed := by
  have h := C8_entrance_animation_one_shot
    (ObsState.mk [0, 1, 2] (fun _ => ElemView.mk none false) (fun i => i)) 1
    (by simp)
  exact ⟨by simp, h.1, h.2.2.1⟩
